import Mathlib

/-!
Formal model of the napari-stream wire codec, array source adapter,
endpoint resolver and listener receive loop, translated from
`src/napari_stream/sender.py`, `src/napari_stream/_listener.py` and
`src/napari_stream/_utils.py`.

Modelling conventions:
* Python strings manipulated character-wise (endpoints) are modelled as
  `List Char`; header and metadata strings stay `String`.
* A numpy array element of dtype `d` is modelled by its raw byte pattern,
  a `Nat` below `256 ^ itemsize d`, serialised little-endian.  The codec
  only moves bytes, so integer, boolean and floating dtypes are treated
  uniformly as bit patterns; no floating-point arithmetic occurs anywhere
  in the code under study.
* JSON serialisation of the header dict (`json.dumps`/`json.loads`) is
  modelled as the identity on a structured `Header` record: the fields
  sent are exactly the fields received.  Float metadata values are
  modelled as rationals (`Rat`), on which the `float(...)` normalisation
  applied by `_send_numpy` is the identity.
* Optional third-party array libraries (torch, torchvision, blosc2, zarr)
  are treated as absent, exactly as the `try/except` import guards in the
  source allow; foreign objects exposing the generic numpy protocol
  (`__array__`, or `shape` plus `dtype`) are modelled by the
  `PyVal.protoObj` constructor, carrying `some a` when `np.asarray` on
  them yields a non-object-dtype array `a` and `none` otherwise.
-/

namespace NapariStream

/-- Element types recognised by the codec, with the tags produced by
`str(arr.dtype)` on the sending side (`_send_numpy`) and consumed by
`np.dtype(tag)` on the receiving side (`_from_bytes`).  Aliases such as
`"u1"` that numpy would also accept are not modelled; no claim involves
them. -/
inductive Dtype where
  | uint8
  | int8
  | bool
  | uint16
  | int16
  | uint32
  | int32
  | float32
  | uint64
  | int64
  | float64
deriving DecidableEq

/-- Byte width of one element, as `np.dtype(d).itemsize`. -/
def itemsize : Dtype → Nat
  | .uint8 => 1
  | .int8 => 1
  | .bool => 1
  | .uint16 => 2
  | .int16 => 2
  | .uint32 => 4
  | .int32 => 4
  | .float32 => 4
  | .uint64 => 8
  | .int64 => 8
  | .float64 => 8

/-- Canonical dtype tag, as printed by `str(arr.dtype)`. -/
def dtypeTag : Dtype → String
  | .uint8 => "uint8"
  | .int8 => "int8"
  | .bool => "bool"
  | .uint16 => "uint16"
  | .int16 => "int16"
  | .uint32 => "uint32"
  | .int32 => "int32"
  | .float32 => "float32"
  | .uint64 => "uint64"
  | .int64 => "int64"
  | .float64 => "float64"

/-- Recognition of a dtype tag, as `np.dtype(tag)` (which raises
`TypeError` on an unrecognised tag, modelled by `none`). -/
def dtypeOf : String → Option Dtype
  | "uint8" => some .uint8
  | "int8" => some .int8
  | "bool" => some .bool
  | "uint16" => some .uint16
  | "int16" => some .int16
  | "uint32" => some .uint32
  | "int32" => some .int32
  | "float32" => some .float32
  | "uint64" => some .uint64
  | "int64" => some .int64
  | "float64" => some .float64
  | _ => none

/-- Memory layout of a dense array: row-major (`"C"`) or column-major
(`"F"`). -/
inductive Order where
  | C
  | F
deriving DecidableEq

/-- Tag written into the header for a layout. -/
def orderTag : Order → String
  | .C => "C"
  | .F => "F"

/-- Interpretation of the header `order` tag by `np.reshape`.  numpy's
order converter accepts `C`/`F`/`A` case-insensitively and raises
`ValueError` on anything else.  For `"A"`: the array produced by
`np.frombuffer` is one-dimensional and hence Fortran-contiguous, so
numpy reads it F-like, which we record as `Order.F`. -/
def parseOrder : String → Option Order
  | "C" => some .C
  | "c" => some .C
  | "F" => some .F
  | "f" => some .F
  | "A" => some .F
  | "a" => some .F
  | _ => none

/-- A dense numpy array: logical shape, element type, the memory layout
its flat buffer uses, and the flat buffer itself (element bit patterns in
memory order). -/
structure NpArr where
  shape : List Nat
  dtype : Dtype
  order : Order
  data : List Nat
deriving DecidableEq

/-- Well-formedness of a dense array: the buffer holds exactly
`prod shape` elements and every element fits in `itemsize` bytes. -/
def WF (a : NpArr) : Prop :=
  a.data.length = a.shape.prod ∧ ∀ x ∈ a.data, x < 256 ^ itemsize a.dtype

/-- Row-major (C) flat offset of a multi-index. -/
def offsetC : List Nat → List Nat → Nat
  | _ :: ss, i :: ix => i * ss.prod + offsetC ss ix
  | _, _ => 0

/-- Column-major (F) flat offset of a multi-index. -/
def offsetF : List Nat → List Nat → Nat
  | s :: ss, i :: ix => i + s * offsetF ss ix
  | _, _ => 0

/-- Flat offset of a multi-index under a given layout. -/
def offsetOf : Order → List Nat → List Nat → Nat
  | .C => offsetC
  | .F => offsetF

/-- Logical element of the array at a multi-index. -/
def elemAt (a : NpArr) (idx : List Nat) : Nat :=
  a.data.getD (offsetOf a.order a.shape idx) 0

/-- A multi-index is valid for a shape when it has the same rank and is
within bounds componentwise. -/
def idxValid (shape idx : List Nat) : Prop :=
  idx.length = shape.length ∧ ∀ p ∈ idx.zip shape, p.1 < p.2

/-- Little-endian byte serialisation of one element into `k` bytes. -/
def natToLE : Nat → Nat → List Nat
  | 0, _ => []
  | k + 1, n => n % 256 :: natToLE k (n / 256)

/-- Little-endian byte deserialisation. -/
def bytesToNat : List Nat → Nat
  | [] => 0
  | b :: bs => b + 256 * bytesToNat bs

/-- Concatenation of the images of a list under a list-valued function
(structural version of `List.flatMap`, kept local so that all codec
definitions reduce by `rfl`). -/
def flatMapL (f : α → List β) : List α → List β
  | [] => []
  | x :: xs => f x ++ flatMapL f xs

/-- Raw byte buffer of an array, as `memoryview(arr)` exposes it: the
flat buffer in memory order, each element serialised to `itemsize`
bytes. -/
def payloadBytes (a : NpArr) : List Nat :=
  flatMapL (natToLE (itemsize a.dtype)) a.data

/-- Element sequence read back from a byte buffer, as
`np.frombuffer(buf, dtype)` reads it: element `i` is bytes
`[i * isz, (i + 1) * isz)`.  (`_from_bytes` only reaches this after the
byte count is known to be a multiple of `isz`.) -/
def frombuffer (isz : Nat) (buf : List Nat) : List Nat :=
  (List.range (buf.length / isz)).map fun i => bytesToNat ((buf.drop (i * isz)).take isz)

/-- Display metadata accepted by `StreamSender.send` /
`StreamSender._send_numpy` (the keyword arguments other than `name`,
which the sender derives per leaf). -/
structure SendOpts where
  colormap : Option String := none
  contrast_limits : Option (List Rat) := none
  rgb : Option Bool := none
  affine : Option (List (List Rat)) := none
  scale : Option (List Rat) := none
  translate : Option (List Rat) := none
  opacity : Option Rat := none
  blending : Option String := none
  is_labels : Bool := false
deriving DecidableEq

/-- Header of a wire frame: the JSON dict built by `_send_numpy` and
parsed by the listener.  Every field is optional because a received
header is an arbitrary JSON map; `_send_numpy` always writes `shape`,
`dtype`, `order` and `is_labels`. -/
structure Header where
  shape : Option (List Nat) := none
  dtype : Option String := none
  order : Option String := none
  is_labels : Option Bool := none
  name : Option String := none
  colormap : Option String := none
  contrast_limits : Option (List Rat) := none
  rgb : Option Bool := none
  affine : Option (List (List Rat)) := none
  scale : Option (List Rat) := none
  translate : Option (List Rat) := none
  opacity : Option Rat := none
  blending : Option String := none
deriving DecidableEq

/-- Errors `_from_bytes` can raise: `KeyError` from a missing required
header key, and `ValueError`/`TypeError` from numpy (malformed buffer,
unknown dtype tag, bad reshape), which the specification groups as
`FormatError`. -/
inductive DecodeError where
  | keyError : String → DecodeError
  | formatError : String → DecodeError
deriving DecidableEq

/-- Layout tag chosen by `_send_numpy`:
`order = "F" if arr.flags["F_CONTIGUOUS"] else "C"`.  A rank-0 or rank-1
contiguous array is Fortran-contiguous, so it is tagged `"F"` even when
stored C-order; the two layouts coincide there.  (numpy additionally
sets the flag for higher-rank shapes with at most one non-unit
dimension, where the layouts also coincide; that corner is not modelled
and no claim depends on it.) -/
def sentOrder (a : NpArr) : Order :=
  if a.order = Order.F ∨ a.shape.length ≤ 1 then Order.F else Order.C

/-- Header built by `StreamSender._send_numpy` for an array, a per-leaf
name and the display options.  Optional fields are written only when
provided, `is_labels` always. -/
def encodeHeader (a : NpArr) (name : Option String) (o : SendOpts) : Header :=
  { shape := some a.shape
    dtype := some (dtypeTag a.dtype)
    order := some (orderTag (sentOrder a))
    is_labels := some o.is_labels
    name := name
    colormap := o.colormap
    contrast_limits := o.contrast_limits
    rgb := o.rgb
    affine := o.affine
    scale := o.scale
    translate := o.translate
    opacity := o.opacity
    blending := o.blending }

/-- One wire frame: header part and payload part. -/
abbrev Frame := Header × List Nat

/-- The frame transmitted by `StreamSender._send_numpy` (the argument
array is dense and contiguous; the `ascontiguousarray` fallback for
non-contiguous views is outside the model, which represents arrays by
their contiguous buffers). -/
def send_numpy (a : NpArr) (name : Option String) (o : SendOpts) : Frame :=
  (encodeHeader a name o, payloadBytes a)

/-- Decoder `_from_bytes(buf, meta)`:
read `meta["shape"]` and `meta["dtype"]` (KeyError when missing), parse
the dtype tag, default `order` to `"C"` via `meta.get`, then
`np.frombuffer(buf, dtype)` (ValueError unless the byte count is a
multiple of the item size) and `arr.reshape(shape, order=order)`
(ValueError when the element count differs from `prod shape` or the
order tag is unrecognised). -/
def from_bytes (buf : List Nat) (hdr : Header) : Except DecodeError NpArr :=
  match hdr.shape with
  | none => Except.error (DecodeError.keyError ("shape"))
  | some shape =>
    match hdr.dtype with
    | none => Except.error (DecodeError.keyError ("dtype"))
    | some dtag =>
      match dtypeOf dtag with
      | none => Except.error (DecodeError.formatError ("data type not understood"))
      | some dtype =>
        let ordertag := hdr.order.getD ("C")
        let isz := itemsize dtype
        if buf.length % isz ≠ 0 then
          Except.error (DecodeError.formatError ("buffer size must be a multiple of element size"))
        else
          match parseOrder ordertag with
          | none => Except.error (DecodeError.formatError ("order not understood"))
          | some ord =>
            let flat := frombuffer isz buf
            if flat.length = shape.prod then
              Except.ok ⟨shape, dtype, ord, flat⟩
            else
              Except.error (DecodeError.formatError ("cannot reshape array"))

/-! Supporting lemmas about the byte-level serialisation. -/

theorem itemsize_pos (d : Dtype) : 0 < itemsize d := by
  cases d <;> simp [itemsize]

theorem natToLE_length (k n : Nat) : (natToLE k n).length = k := by
  induction k generalizing n with
  | zero => rfl
  | succ k ih => simp [natToLE, ih]

theorem bytesToNat_natToLE (k n : Nat) (h : n < 256 ^ k) :
    bytesToNat (natToLE k n) = n := by
  induction k generalizing n with
  | zero =>
      simp only [pow_zero, Nat.lt_one_iff] at h
      simp [natToLE, bytesToNat, h]
  | succ k ih =>
      have hdiv : n / 256 < 256 ^ k := by
        rw [pow_succ] at h
        exact Nat.div_lt_of_lt_mul (by omega)
      simp only [natToLE, bytesToNat, ih _ hdiv]
      omega

theorem flatMapL_length_const (f : α → List β) (k : Nat) (hf : ∀ x, (f x).length = k) :
    ∀ l : List α, (flatMapL f l).length = l.length * k := by
  intro l
  induction l with
  | nil => simp [flatMapL]
  | cons x xs ih =>
      simp only [flatMapL, List.length_append, ih, hf, List.length_cons]
      ring

theorem flatMapL_drop_block (f : α → List β) (k : Nat) (hf : ∀ x, (f x).length = k)
    (x : α) (xs : List α) :
    (flatMapL f (x :: xs)).drop k = flatMapL f xs := by
  show (f x ++ flatMapL f xs).drop k = flatMapL f xs
  rw [← hf x]
  exact List.drop_left _ _

theorem flatMapL_take_block (f : α → List β) (k : Nat) (hf : ∀ x, (f x).length = k)
    (x : α) (xs : List α) :
    (flatMapL f (x :: xs)).take k = f x := by
  show (f x ++ flatMapL f xs).take k = f x
  rw [← hf x]
  exact List.take_left _ _

theorem frombuffer_length (isz : Nat) (buf : List Nat) :
    (frombuffer isz buf).length = buf.length / isz := by
  simp [frombuffer]

theorem frombuffer_payload (isz : Nat) (hisz : 0 < isz) (data : List Nat)
    (hb : ∀ x ∈ data, x < 256 ^ isz) :
    frombuffer isz (flatMapL (natToLE isz) data) = data := by
  induction data with
  | nil => simp [frombuffer, flatMapL]
  | cons x xs ih =>
      have hf : ∀ y, (natToLE isz y).length = isz := fun y => natToLE_length isz y
      have hlen : (flatMapL (natToLE isz) (x :: xs)).length = (xs.length + 1) * isz := by
        rw [flatMapL_length_const _ isz hf]
        simp
      have hlen2 : (flatMapL (natToLE isz) xs).length = xs.length * isz := by
        rw [flatMapL_length_const _ isz hf]
      unfold frombuffer
      rw [hlen, Nat.mul_div_cancel _ hisz, List.range_succ_eq_map]
      simp only [List.map_cons, List.map_map]
      have hhead : bytesToNat (((flatMapL (natToLE isz) (x :: xs)).drop (0 * isz)).take isz) = x := by
        rw [Nat.zero_mul, List.drop_zero, flatMapL_take_block _ isz hf]
        exact bytesToNat_natToLE isz x (hb x (by simp))
      rw [hhead]
      congr 1
      have hdrop : ∀ i : Nat,
          (flatMapL (natToLE isz) (x :: xs)).drop (Nat.succ i * isz) =
            (flatMapL (natToLE isz) xs).drop (i * isz) := by
        intro i
        rw [Nat.succ_mul, Nat.add_comm, ← List.drop_drop, flatMapL_drop_block _ isz hf]
      have htail := ih (fun y hy => hb y (by simp [hy]))
      unfold frombuffer at htail
      rw [hlen2, Nat.mul_div_cancel _ hisz] at htail
      have hcong : ∀ i ∈ List.range xs.length,
          ((fun i => bytesToNat (((flatMapL (natToLE isz) (x :: xs)).drop (i * isz)).take isz)) ∘
              Nat.succ) i =
            (fun i => bytesToNat (((flatMapL (natToLE isz) xs).drop (i * isz)).take isz)) i := by
        intro i _
        simp only [Function.comp_apply, hdrop i]
      rw [List.map_congr_left hcong]
      exact htail

theorem dtypeOf_dtypeTag (d : Dtype) : dtypeOf (dtypeTag d) = some d := by
  cases d <;> rfl

theorem parseOrder_orderTag (o : Order) : parseOrder (orderTag o) = some o := by
  cases o <;> rfl

/-! Evaluation of the decoder once required fields are in view. -/

theorem from_bytes_eval (buf : List Nat) (hdr : Header) (shape : List Nat)
    (dtag : String) (d : Dtype)
    (hs : hdr.shape = some shape) (hd : hdr.dtype = some dtag)
    (hrec : dtypeOf dtag = some d) :
    from_bytes buf hdr =
      if buf.length % itemsize d ≠ 0 then
        Except.error (DecodeError.formatError ("buffer size must be a multiple of element size"))
      else
        match parseOrder (hdr.order.getD ("C")) with
        | none => Except.error (DecodeError.formatError ("order not understood"))
        | some ord =>
          if (frombuffer (itemsize d) buf).length = shape.prod then
            Except.ok ⟨shape, d, ord, frombuffer (itemsize d) buf⟩
          else
            Except.error (DecodeError.formatError ("cannot reshape array")) := by
  unfold from_bytes
  rw [hs, hd]
  simp only [hrec]

theorem from_bytes_eval_badmod (buf : List Nat) (hdr : Header) (shape : List Nat)
    (dtag : String) (d : Dtype)
    (hs : hdr.shape = some shape) (hd : hdr.dtype = some dtag)
    (hrec : dtypeOf dtag = some d) (hmod : buf.length % itemsize d ≠ 0) :
    from_bytes buf hdr =
      Except.error (DecodeError.formatError ("buffer size must be a multiple of element size")) := by
  rw [from_bytes_eval buf hdr shape dtag d hs hd hrec, if_pos hmod]

theorem from_bytes_eval_badorder (buf : List Nat) (hdr : Header) (shape : List Nat)
    (dtag : String) (d : Dtype)
    (hs : hdr.shape = some shape) (hd : hdr.dtype = some dtag)
    (hrec : dtypeOf dtag = some d) (hmod : buf.length % itemsize d = 0)
    (hord : parseOrder (hdr.order.getD ("C")) = none) :
    from_bytes buf hdr = Except.error (DecodeError.formatError ("order not understood")) := by
  rw [from_bytes_eval buf hdr shape dtag d hs hd hrec, if_neg (by simp [hmod]), hord]

theorem from_bytes_eval_ok (buf : List Nat) (hdr : Header) (shape : List Nat)
    (dtag : String) (d : Dtype) (ord : Order)
    (hs : hdr.shape = some shape) (hd : hdr.dtype = some dtag)
    (hrec : dtypeOf dtag = some d) (hmod : buf.length % itemsize d = 0)
    (hord : parseOrder (hdr.order.getD ("C")) = some ord) :
    from_bytes buf hdr =
      if (frombuffer (itemsize d) buf).length = shape.prod then
        Except.ok ⟨shape, d, ord, frombuffer (itemsize d) buf⟩
      else
        Except.error (DecodeError.formatError ("cannot reshape array")) := by
  rw [from_bytes_eval buf hdr shape dtag d hs hd hrec, if_neg (by simp [hmod]), hord]

theorem from_bytes_ok_inv (buf : List Nat) (hdr : Header) (a2 : NpArr)
    (hok : from_bytes buf hdr = Except.ok a2) :
    hdr.shape = some a2.shape ∧
    (∃ dtag, hdr.dtype = some dtag ∧ dtypeOf dtag = some a2.dtype) ∧
    parseOrder (hdr.order.getD ("C")) = some a2.order ∧
    a2.data.length = a2.shape.prod ∧
    buf.length = a2.shape.prod * itemsize a2.dtype := by
  cases hsh : hdr.shape with
  | none =>
      unfold from_bytes at hok
      rw [hsh] at hok
      simp at hok
  | some shape =>
  cases hdt : hdr.dtype with
  | none =>
      unfold from_bytes at hok
      rw [hsh, hdt] at hok
      simp at hok
  | some dtag =>
  cases hrec : dtypeOf dtag with
  | none =>
      unfold from_bytes at hok
      rw [hsh, hdt] at hok
      simp [hrec] at hok
  | some d =>
  by_cases hmod : buf.length % itemsize d = 0
  · cases hord : parseOrder (hdr.order.getD ("C")) with
    | none =>
        rw [from_bytes_eval_badorder buf hdr shape dtag d hsh hdt hrec hmod hord] at hok
        simp at hok
    | some ord =>
        rw [from_bytes_eval_ok buf hdr shape dtag d ord hsh hdt hrec hmod hord] at hok
        by_cases hsz : (frombuffer (itemsize d) buf).length = shape.prod
        · rw [if_pos hsz] at hok
          cases hok
          refine ⟨rfl, ⟨dtag, rfl, hrec⟩, rfl, ?_, ?_⟩
          · rw [frombuffer_length] at hsz ⊢
            simpa using hsz
          · rw [frombuffer_length] at hsz
            have hdm := Nat.div_add_mod buf.length (itemsize d)
            calc buf.length = itemsize d * (buf.length / itemsize d) + buf.length % itemsize d :=
                  hdm.symm
              _ = itemsize d * shape.prod + 0 := by rw [hsz, hmod]
              _ = shape.prod * itemsize d := by ring
        · rw [if_neg hsz] at hok
          simp at hok
  · rw [from_bytes_eval_badmod buf hdr shape dtag d hsh hdt hrec hmod] at hok
    simp at hok

/-! The sent layout tag never changes logical element positions. -/

theorem offsetF_eq_offsetC_of_rank_le_one (shape idx : List Nat) (h1 : shape.length ≤ 1) :
    offsetF shape idx = offsetC shape idx := by
  cases shape with
  | nil => cases idx <;> rfl
  | cons s ss =>
      cases ss with
      | nil =>
          cases idx with
          | nil => rfl
          | cons i ix =>
              simp [offsetC, offsetF]
      | cons s2 ss2 => simp at h1

theorem offsetOf_sentOrder (a : NpArr) (idx : List Nat) :
    offsetOf (sentOrder a) a.shape idx = offsetOf a.order a.shape idx := by
  unfold sentOrder
  by_cases h : a.order = Order.F ∨ a.shape.length ≤ 1
  · rw [if_pos h]
    rcases h with h | h
    · rw [h]
    · cases ho : a.order
      · show offsetF a.shape idx = offsetC a.shape idx
        exact offsetF_eq_offsetC_of_rank_le_one _ _ h
      · rfl
  · rw [if_neg h]
    push_neg at h
    cases ho : a.order
    · rfl
    · exact absurd ho h.1

/-! Claim C1: encode/decode round trip. -/

theorem from_bytes_send_numpy (a : NpArr) (nm : Option String) (o : SendOpts) (hwf : WF a) :
    from_bytes (send_numpy a nm o).2 (send_numpy a nm o).1 =
      Except.ok ⟨a.shape, a.dtype, sentOrder a, a.data⟩ := by
  obtain ⟨hlen, hb⟩ := hwf
  have hisz := itemsize_pos a.dtype
  have hf : ∀ y, (natToLE (itemsize a.dtype) y).length = itemsize a.dtype :=
    fun y => natToLE_length _ y
  have hplen : (payloadBytes a).length = a.data.length * itemsize a.dtype :=
    flatMapL_length_const _ _ hf a.data
  have hmod : (payloadBytes a).length % itemsize a.dtype = 0 := by
    rw [hplen]
    exact Nat.mul_mod_left _ _
  have hfb : frombuffer (itemsize a.dtype) (payloadBytes a) = a.data :=
    frombuffer_payload _ hisz _ hb
  have hord : (encodeHeader a nm o).order.getD ("C") = orderTag (sentOrder a) := rfl
  show from_bytes (payloadBytes a) (encodeHeader a nm o) = _
  rw [from_bytes_eval_ok (payloadBytes a) (encodeHeader a nm o) a.shape (dtypeTag a.dtype)
        a.dtype (sentOrder a) rfl rfl (dtypeOf_dtypeTag _) hmod
        (by rw [hord, parseOrder_orderTag])]
  rw [hfb, if_pos hlen]

/-- Property proved for claim C1: decoding the frame produced by encoding
the pair of a dense contiguous array and a metadata map yields an array
with the same shape, dtype and logical element values, and the header of
the frame carries every metadata field the caller supplied, its value
unchanged. -/
def roundTripHolds (a : NpArr) (nm : Option String) (o : SendOpts) : Prop :=
  ∃ a2 : NpArr,
    from_bytes (send_numpy a nm o).2 (send_numpy a nm o).1 = Except.ok a2 ∧
    a2.shape = a.shape ∧
    a2.dtype = a.dtype ∧
    (∀ idx : List Nat, idxValid a.shape idx → elemAt a2 idx = elemAt a idx) ∧
    (send_numpy a nm o).1.name = nm ∧
    (send_numpy a nm o).1.is_labels = some o.is_labels ∧
    (send_numpy a nm o).1.colormap = o.colormap ∧
    (send_numpy a nm o).1.contrast_limits = o.contrast_limits ∧
    (send_numpy a nm o).1.rgb = o.rgb ∧
    (send_numpy a nm o).1.affine = o.affine ∧
    (send_numpy a nm o).1.scale = o.scale ∧
    (send_numpy a nm o).1.translate = o.translate ∧
    (send_numpy a nm o).1.opacity = o.opacity ∧
    (send_numpy a nm o).1.blending = o.blending

/-- Claim C1 (confirmed): for every well-formed dense array (any
supported dtype, any rank, either contiguous order) and any metadata,
decoding the encoded frame reproduces the array's shape, dtype and
element values exactly, and every metadata field supplied is present in
the decoded header with its value preserved. -/
theorem encode_decode_roundtrip (a : NpArr) (nm : Option String) (o : SendOpts)
    (hwf : WF a) : roundTripHolds a nm o := by
  refine ⟨⟨a.shape, a.dtype, sentOrder a, a.data⟩, from_bytes_send_numpy a nm o hwf,
    rfl, rfl, ?_, rfl, rfl, rfl, rfl, rfl, rfl, rfl, rfl, rfl, rfl⟩
  intro idx _
  unfold elemAt
  show a.data.getD (offsetOf (sentOrder a) a.shape idx) 0 = _
  rw [offsetOf_sentOrder]

def exArr : NpArr := ⟨[2, 2], Dtype.uint8, Order.C, [1, 2, 3, 4]⟩

def exOpts : SendOpts :=
  { colormap := some ("gray"), opacity := some ((1 : Rat) / 2),
    contrast_limits := some [0, 255], is_labels := true }

/-- Witness for claim C1 at a concrete 2 by 2 uint8 array. -/
theorem encode_decode_roundtrip_witness :
    WF exArr ∧ roundTripHolds exArr (some ("img")) exOpts :=
  ⟨⟨by decide, by decide⟩,
    encode_decode_roundtrip exArr (some ("img")) exOpts ⟨by decide, by decide⟩⟩

/-! Claim C2: when does the decoder raise FormatError. -/

/-- Property proved for claim C2 (amended): with shape declared and the
dtype tag recognised, the decoder raises FormatError exactly when the
payload length differs from the expected byte count or the order tag
(defaulting to C) is unrecognised, and returns normally otherwise. -/
def FormatErrorIff (buf : List Nat) (hdr : Header) (shape : List Nat) (d : Dtype) : Prop :=
  ((∃ m, from_bytes buf hdr = Except.error (DecodeError.formatError m)) ↔
    buf.length ≠ shape.prod * itemsize d ∨ parseOrder (hdr.order.getD ("C")) = none) ∧
  (buf.length = shape.prod * itemsize d → parseOrder (hdr.order.getD ("C")) ≠ none →
    ∃ a2, from_bytes buf hdr = Except.ok a2)

/-- Claim C2 (amended): for every frame whose header declares a shape
and a recognised dtype, decode raises FormatError iff the payload byte
length differs from prod(shape) times itemsize(dtype) or the order tag
is unrecognised; when the length matches and the order tag (defaulting
to C) is recognised, decode returns normally. -/
theorem decode_formatError_iff (buf : List Nat) (hdr : Header) (shape : List Nat)
    (dtag : String) (d : Dtype)
    (hs : hdr.shape = some shape) (hd : hdr.dtype = some dtag)
    (hrec : dtypeOf dtag = some d) : FormatErrorIff buf hdr shape d := by
  have hisz := itemsize_pos d
  by_cases hmod : buf.length % itemsize d = 0
  · cases hord : parseOrder (hdr.order.getD ("C")) with
    | none =>
        have hex := from_bytes_eval_badorder buf hdr shape dtag d hs hd hrec hmod hord
        constructor
        · constructor
          · intro _
            exact Or.inr hord
          · intro _
            exact ⟨_, hex⟩
        · intro _ h2
          exact absurd hord h2
    | some ord =>
        have hev := from_bytes_eval_ok buf hdr shape dtag d ord hs hd hrec hmod hord
        by_cases hsz : (frombuffer (itemsize d) buf).length = shape.prod
        · have hex : from_bytes buf hdr =
              Except.ok ⟨shape, d, ord, frombuffer (itemsize d) buf⟩ := by
            rw [hev, if_pos hsz]
          have hlen_eq : buf.length = shape.prod * itemsize d := by
            rw [frombuffer_length] at hsz
            have hdm := Nat.div_add_mod buf.length (itemsize d)
            calc buf.length
                = itemsize d * (buf.length / itemsize d) + buf.length % itemsize d := hdm.symm
              _ = itemsize d * shape.prod + 0 := by rw [hsz, hmod]
              _ = shape.prod * itemsize d := by ring
          constructor
          · simp [hex, hlen_eq, hord]
          · intro _ _
            exact ⟨_, hex⟩
        · have hex : from_bytes buf hdr =
              Except.error (DecodeError.formatError ("cannot reshape array")) := by
            rw [hev, if_neg hsz]
          have hlen_ne : buf.length ≠ shape.prod * itemsize d := by
            intro hc
            apply hsz
            rw [frombuffer_length, hc, Nat.mul_div_cancel _ hisz]
          constructor
          · simp [hex, hlen_ne]
          · intro h1 _
            exact absurd h1 hlen_ne
  · have hex := from_bytes_eval_badmod buf hdr shape dtag d hs hd hrec hmod
    have hlen_ne : buf.length ≠ shape.prod * itemsize d := by
      intro hc
      apply hmod
      rw [hc]
      exact Nat.mul_mod_left _ _
    constructor
    · simp [hex, hlen_ne]
    · intro h1 _
      exact absurd h1 hlen_ne

def hdrBadOrder : Header := { shape := some [1], dtype := some ("uint8"), order := some ("X") }

/-- Counterexample for claim C2 as stated: a frame whose header declares
shape `[1]` and the recognised dtype `uint8`, whose one-byte payload has
exactly the expected length, still fails to decode because the order tag
`"X"` is not recognised by numpy's reshape; so FormatError is not raised
only on a length mismatch. -/
theorem decode_formatError_order_counterexample :
    ([7] : List Nat).length = ([1] : List Nat).prod * itemsize Dtype.uint8 ∧
    from_bytes [7] hdrBadOrder =
      Except.error (DecodeError.formatError ("order not understood")) :=
  ⟨rfl, rfl⟩

def hdrOkU8 : Header := { shape := some [2], dtype := some ("uint8") }

/-- Witness for the amended claim C2 at a concrete header and payload. -/
theorem decode_formatError_iff_witness : FormatErrorIff [3, 4] hdrOkU8 [2] Dtype.uint8 :=
  decode_formatError_iff [3, 4] hdrOkU8 [2] ("uint8") Dtype.uint8 rfl rfl rfl

/-! Claim C3: which header validation the decoder actually performs. -/

/-- Property proved for claim C3 (amended): decode fails on a missing
shape or dtype field, and an ok result is always fully formed — its
shape, dtype and order agree with the header (order defaulting to C) and
its buffer holds exactly prod(shape) elements read from a payload of
exactly the matching byte length.  Shape contents are not validated. -/
def DecodeValidation (buf : List Nat) (hdr : Header) : Prop :=
  (hdr.shape = none → from_bytes buf hdr = Except.error (DecodeError.keyError ("shape"))) ∧
  (∀ shape, hdr.shape = some shape → hdr.dtype = none →
    from_bytes buf hdr = Except.error (DecodeError.keyError ("dtype"))) ∧
  (∀ a2, from_bytes buf hdr = Except.ok a2 →
    hdr.shape = some a2.shape ∧
    (∃ dtag, hdr.dtype = some dtag ∧ dtypeOf dtag = some a2.dtype) ∧
    parseOrder (hdr.order.getD ("C")) = some a2.order ∧
    a2.data.length = a2.shape.prod ∧
    buf.length = a2.shape.prod * itemsize a2.dtype)

/-- Claim C3 (amended): decode raises an error when shape or dtype is
missing, and never returns a partially valid result; but the order field
is optional (defaulting to C) and the shape sequence itself is not
validated to be non-empty or positive. -/
theorem decode_required_field_validation (buf : List Nat) (hdr : Header) :
    DecodeValidation buf hdr := by
  refine ⟨?_, ?_, ?_⟩
  · intro h
    unfold from_bytes
    rw [h]
  · intro shape h1 h2
    unfold from_bytes
    rw [h1, h2]
  · intro a2 hok
    exact from_bytes_ok_inv buf hdr a2 hok

def hdrNoOrderZeroShape : Header := { shape := some [0], dtype := some ("uint8") }

/-- Counterexample for claim C3 as stated: a header with no `order`
field at all and with the non-positive shape `[0]` is accepted by decode
(with an empty payload) instead of being rejected. -/
theorem decode_accepts_missing_order_and_zero_shape :
    hdrNoOrderZeroShape.order = none ∧
    from_bytes ([] : List Nat) hdrNoOrderZeroShape =
      Except.ok ⟨[0], Dtype.uint8, Order.C, []⟩ :=
  ⟨rfl, rfl⟩

def hdrShapeOnly : Header := { shape := some [3] }

/-- Witness for the amended claim C3: a header with a shape but no dtype
is rejected with the dtype key error. -/
theorem decode_required_field_validation_witness :
    from_bytes [0] hdrShapeOnly = Except.error (DecodeError.keyError ("dtype")) :=
  (decode_required_field_validation [0] hdrShapeOnly).2.1 [3] rfl rfl

/-! Claim C10: a missing order field is treated as C. -/

/-- Claim C10 (confirmed): a frame whose header omits the order field
decodes exactly as if the header carried order C, and any array it
produces is reconstructed row-major. -/
theorem decode_missing_order_defaults_C (buf : List Nat) (hdr : Header)
    (hord : hdr.order = none) :
    from_bytes buf hdr = from_bytes buf { hdr with order := some ("C") } ∧
    (∀ a2, from_bytes buf hdr = Except.ok a2 → a2.order = Order.C) := by
  constructor
  · unfold from_bytes
    rw [hord]
    rfl
  · intro a2 hok
    have hinv := (from_bytes_ok_inv buf hdr a2 hok).2.2.1
    rw [hord] at hinv
    simpa [parseOrder] using hinv.symm

def hdrNoOrder : Header := { shape := some [2], dtype := some ("uint8") }

/-- Witness for claim C10 at a concrete header without an order field. -/
theorem decode_missing_order_defaults_C_witness :
    from_bytes [5, 6] hdrNoOrder = from_bytes [5, 6] { hdrNoOrder with order := some ("C") } ∧
    (∀ a2, from_bytes [5, 6] hdrNoOrder = Except.ok a2 → a2.order = Order.C) :=
  decode_missing_order_defaults_C [5, 6] hdrNoOrder rfl

/-! Array source adapter: Python values, array-likeness, flattening. -/

/-- Row-major enumeration of all valid multi-indices of a shape. -/
def indicesOf : List Nat → List (List Nat)
  | [] => [[]]
  | s :: ss => flatMapL (fun i => (indicesOf ss).map (i :: ·)) (List.range s)

/-- Logical elements of an array in row-major order (what copying it
into a fresh C-ordered array produces). -/
def rowMajorData (a : NpArr) : List Nat :=
  (indicesOf a.shape).map (elemAt a)

/-- Stacking of a sequence of arrays along a new leading axis, as
`np.asarray` does to a list or tuple of equal-shape arrays.  The empty
sequence gives numpy's empty float64 array of shape `(0,)`.  numpy's
dtype promotion across mixed element dtypes is not modelled (entries
must agree exactly; no claim involves promotion). -/
def stackArrays : List NpArr → Option NpArr
  | [] => some ⟨[0], Dtype.float64, Order.C, []⟩
  | a :: rest =>
      if rest.all (fun b => b.shape == a.shape && b.dtype == a.dtype) then
        some ⟨(rest.length + 1) :: a.shape, a.dtype, Order.C, flatMapL rowMajorData (a :: rest)⟩
      else none

/-- Key of a Python dict entry, as far as path formatting is concerned:
distinct keys can render to the same path segment text, e.g. the int
key `1` and the string key `"1"` both print as `1` inside
`f"{name}[{key}]"`. -/
inductive PyKey where
  | str : String → PyKey
  | int : Nat → PyKey
deriving DecidableEq

/-- Text a key contributes to a qualified path. -/
def keyStr : PyKey → String
  | .str s => s
  | .int n => toString n

mutual

/-- Python values the sender can traverse: dicts, lists, tuples, numpy
arrays, numeric scalars, strings, foreign objects exposing the generic
numpy protocol (see the module docstring), and anything else.  Dict
entry sequences and element sequences are mutual inductives (rather
than nested `List`s) so that every traversal below is structurally
recursive. -/
inductive PyVal where
  | dict : PyFields → PyVal
  | list : PyElems → PyVal
  | tuple : PyElems → PyVal
  | ndarray : NpArr → PyVal
  | num : Nat → PyVal
  | pystr : String → PyVal
  | protoObj : Option NpArr → PyVal
  | other : PyVal

/-- Entries of a Python dict, in insertion order. -/
inductive PyFields where
  | nil : PyFields
  | cons : PyKey → PyVal → PyFields → PyFields

/-- Elements of a Python list or tuple. -/
inductive PyElems where
  | nil : PyElems
  | cons : PyVal → PyElems → PyElems

end

mutual

/-- Conversion attempted by `np.asarray` on a traversed value, yielding
`some` exactly when the result is a dense array of non-object dtype:
scalars become 0-d int64 arrays (values assumed to fit, numpy would
raise OverflowError otherwise), arrays pass through, protocol objects
yield what their buffer export yields, and lists/tuples stack their
element conversions.  Strings (unicode dtypes) are not modelled; no
claim involves them. -/
def asarray : PyVal → Option NpArr
  | .num n => some ⟨[], Dtype.int64, Order.C, [n]⟩
  | .ndarray a => some a
  | .protoObj oa => oa
  | .list vs =>
      match asarrayElems vs with
      | some arrs => stackArrays arrs
      | none => none
  | .tuple vs =>
      match asarrayElems vs with
      | some arrs => stackArrays arrs
      | none => none
  | .dict _ => none
  | .pystr _ => none
  | .other => none

/-- Elementwise `np.asarray` over a sequence. -/
def asarrayElems : PyElems → Option (List NpArr)
  | .nil => some []
  | .cons v vs =>
      match asarray v, asarrayElems vs with
      | some a, some rest => some (a :: rest)
      | _, _ => none

end

/-- Predicate `StreamSender.is_arraylike`: strings, byte sequences,
dicts and sets are never array-like; numpy arrays and scalars are;
objects with `__array__` or with both `shape` and `dtype` are (without
any dtype check); lists and tuples are array-like when `np.asarray`
yields a non-object dtype array.  Torch, blosc2 and zarr branches are
absent per the import guards. -/
def is_arraylike : PyVal → Bool
  | .pystr _ => false
  | .dict _ => false
  | .ndarray _ => true
  | .protoObj _ => true
  | .list vs => (asarray (.list vs)).isSome
  | .tuple vs => (asarray (.tuple vs)).isSome
  | .num _ => false
  | .other => false

/-- Insertion of one binding into an insertion-ordered map, with the
overwrite-in-place semantics of a Python dict. -/
def dictInsert (m : List (String × PyVal)) (k : String) (v : PyVal) : List (String × PyVal) :=
  if m.any (fun p => p.1 == k) then
    m.map (fun p => if p.1 == k then (k, v) else p)
  else m ++ [(k, v)]

/-- Update of an insertion-ordered map by another, as
`new_obj.update(result)` merges dicts in `retrieve_array_like`. -/
def dictUpdate (m upd : List (String × PyVal)) : List (String × PyVal) :=
  upd.foldl (fun acc p => dictInsert acc p.1 p.2) m

/-- Renaming of a leaf map by an outer path, as an outer traversal level
sees the leaves found below `name`. -/
def prependPath (pre : String) (l : List (String × PyVal)) : List (String × PyVal) :=
  l.map (fun p => (pre ++ p.1, p.2))

/-- Merge of a dict's per-entry leaf maps: each entry's leaves are
qualified by `[key]` and merged left to right, as the
`new_obj.update(result)` loop does. -/
def joinFields (l : List (PyKey × List (String × PyVal))) : List (String × PyVal) :=
  l.foldl (fun acc kr => dictUpdate acc (prependPath (("[") ++ keyStr kr.1 ++ ("]")) kr.2)) []

/-- Merge of a list's per-element leaf maps: element `i`'s leaves are
qualified by `[i]` and merged left to right. -/
def joinIndexed (l : List (List (String × PyVal))) : List (String × PyVal) :=
  l.enum.foldl (fun acc ir => dictUpdate acc (prependPath (("[") ++ toString ir.1 ++ ("]")) ir.2)) []

mutual

/-- Leaves discovered below one value, keyed by their qualified path
relative to that value (the empty path when the value itself is the
leaf): dict entries recurse under `[key]` and are merged in insertion
order, list elements recurse under `[index]`, any other value is a leaf
when array-like and is dropped otherwise.  Tuples take the leaf path:
the `isinstance(obj, list)` test of `retrieve_array_like` does not
cover them.

The source threads the absolute path prefix `name` through the
recursion and merges absolute path strings; here the recursion is
prefix-free and `retrieve_array_like` prepends the prefix once at the
top.  The two are pointwise equal because string append is
left-cancellative, so merging relative paths collides exactly when
merging the prefixed paths does; `prependPath_dictUpdate` below records
that distribution. -/
def leavesOf : PyVal → List (String × PyVal)
  | .dict kvs => joinFields (fieldsLeaves kvs)
  | .list vs => joinIndexed (elemsLeaves vs)
  | v => if is_arraylike v then [(("" : String), v)] else []

/-- Per-entry leaf maps of a dict's entries, with their keys. -/
def fieldsLeaves : PyFields → List (PyKey × List (String × PyVal))
  | .nil => []
  | .cons k v rest => (k, leavesOf v) :: fieldsLeaves rest

/-- Per-element leaf maps of a list's elements, in order. -/
def elemsLeaves : PyElems → List (List (String × PyVal))
  | .nil => []
  | .cons v rest => leavesOf v :: elemsLeaves rest

end

/-- Flattening `StreamSender.retrieve_array_like(name, obj)`: the leaf
map of `obj` with every path qualified by the base `name`. -/
def retrieve_array_like (name : String) (v : PyVal) : List (String × PyVal) :=
  prependPath name (leavesOf v)

theorem strAppend_left_cancel (p a b : String) (h : p ++ a = p ++ b) : a = b := by
  have hd : a.data = b.data :=
    List.append_cancel_left (by rw [← String.data_append, ← String.data_append, h])
  cases a
  cases b
  exact congrArg String.mk (by simpa using hd)

theorem strAppend_beq_left (p a b : String) : ((p ++ a) == (p ++ b)) = (a == b) := by
  by_cases h : a = b
  · simp [h]
  · have h2 : ¬ p ++ a = p ++ b := fun hc => h (strAppend_left_cancel p a b hc)
    simp [h, h2]

theorem list_any_congr (l : List α) (f g : α → Bool) (h : ∀ x, f x = g x) :
    l.any f = l.any g := by
  induction l with
  | nil => rfl
  | cons x xs ih => simp only [List.any_cons, h, ih]

theorem prependPath_dictInsert (p : String) (m : List (String × PyVal)) (k : String) (v : PyVal) :
    prependPath p (dictInsert m k v) = dictInsert (prependPath p m) (p ++ k) v := by
  unfold dictInsert prependPath
  rw [List.any_map]
  rw [show ((fun x : String × PyVal => x.1 == p ++ k) ∘ fun x : String × PyVal => (p ++ x.1, x.2)) =
        (fun x : String × PyVal => ((p ++ x.1) == (p ++ k))) from rfl]
  rw [list_any_congr m _ _ (fun x => strAppend_beq_left p x.1 k)]
  by_cases hc : m.any (fun x => x.1 == k) = true
  · rw [if_pos hc, if_pos hc, List.map_map, List.map_map]
    apply List.map_congr_left
    intro x _
    simp only [Function.comp_apply]
    by_cases hx : (x.1 == k) = true
    · rw [if_pos hx, if_pos (by rw [strAppend_beq_left]; exact hx)]
    · rw [if_neg hx, if_neg (by rw [strAppend_beq_left]; exact hx)]
  · rw [if_neg hc, if_neg hc]
    simp

/-- The path prefix distributes over the merge: merging under relative
paths and prefixing afterwards is the same as prefixing first and
merging absolute paths, because string append is left-cancellative. -/
theorem prependPath_dictUpdate (p : String) (m upd : List (String × PyVal)) :
    prependPath p (dictUpdate m upd) = dictUpdate (prependPath p m) (prependPath p upd) := by
  induction upd generalizing m with
  | nil => rfl
  | cons x xs ih =>
      show prependPath p (dictUpdate (dictInsert m x.1 x.2) xs) = _
      rw [ih, prependPath_dictInsert]
      rfl

/-- Coercion `StreamSender._to_numpy` with the optional torch, blosc2
and zarr dependencies absent: numpy arrays pass through; a generic
protocol object passes through if `np.asarray` on it has non-object
dtype, and otherwise falls through to the final `TypeError`; lists and
tuples convert via `np.asarray` when that yields non-object dtype;
everything else raises `TypeError` (error message abbreviated). -/
def to_numpy : PyVal → Except String NpArr
  | .ndarray a => Except.ok a
  | .protoObj (some a) => Except.ok a
  | .list vs =>
      match asarray (.list vs) with
      | some a => Except.ok a
      | none => Except.error ("Unsupported array type")
  | .tuple vs =>
      match asarray (.tuple vs) with
      | some a => Except.ok a
      | none => Except.error ("Unsupported array type")
  | _ => Except.error ("Unsupported array type")

/-- Structure values that `retrieve_array_like` recurses into. -/
def isStruct : PyVal → Bool
  | .dict _ => true
  | .list _ => true
  | _ => false

/-- Structure values that `StreamSender.send` routes through the
traversal path (`isinstance(array, Mapping)` or list/tuple). -/
def isTopStruct : PyVal → Bool
  | .dict _ => true
  | .list _ => true
  | .tuple _ => true
  | _ => false

/-- Transmission loop of `StreamSender.send` over the flattened leaves:
each leaf is coerced then sent; a coercion failure raises out of the
loop, so the frames already sent stay sent and no later leaf is
processed.  Returns the frames actually transmitted and the error, if
any, that reached the caller. -/
def send_frames (o : SendOpts) : List (String × PyVal) → List Frame × Option String
  | [] => ([], none)
  | (p, x) :: rest =>
      match to_numpy x with
      | .error e => ([], some e)
      | .ok a =>
          let r := send_frames o rest
          (send_numpy a (some p) o :: r.1, r.2)

/-- Frames produced by the coercible leaves of a list, in order. -/
def framesOf (o : SendOpts) (leaves : List (String × PyVal)) : List Frame :=
  leaves.filterMap (fun px => (to_numpy px.2).toOption.map (fun a => send_numpy a (some px.1) o))

/-- Entry point `StreamSender.send`: structures are flattened and each
leaf transmitted under its qualified path; single objects are coerced
and transmitted under the base name (the given name, or `"array"`). -/
def send (v : PyVal) (nm : Option String) (o : SendOpts) : List Frame × Option String :=
  let base := nm.getD ("array")
  if isTopStruct v then
    send_frames o (retrieve_array_like base v)
  else
    match to_numpy v with
    | .ok a => ([send_numpy a (some base) o], none)
    | .error e => ([], some e)

/-! Claim C4: shape of the flattening traversal. -/

theorem leavesOf_leaf (v : PyVal) (h1 : isStruct v = false) (h2 : is_arraylike v = true) :
    leavesOf v = [(("" : String), v)] := by
  cases v <;> simp_all [leavesOf, isStruct]

/-- Claim C4 (amended): flatten recurses into dicts per entry with path
`name[key]` and into lists per element with path `name[index]`; the
spec's three-leaf example holds verbatim; scalars, strings and other
non-array-like values are dropped silently; but tuples are not
recursed: a tuple is itself a leaf candidate, kept whole at `name`
when array-like and dropped otherwise. -/
theorem flatten_traversal :
    (∀ i1 i2 i3 : NpArr,
      retrieve_array_like ("root")
        (PyVal.dict (PyFields.cons (PyKey.str ("a"))
          (PyVal.list (PyElems.cons (PyVal.ndarray i1) (PyElems.cons (PyVal.ndarray i2) PyElems.nil)))
          (PyFields.cons (PyKey.str ("b")) (PyVal.ndarray i3) PyFields.nil))) =
      [(("root[a][0]"), PyVal.ndarray i1), (("root[a][1]"), PyVal.ndarray i2),
       (("root[b]"), PyVal.ndarray i3)]) ∧
    (∀ (nm : String) (k : Nat), retrieve_array_like nm (PyVal.num k) = []) ∧
    (∀ (nm s : String), retrieve_array_like nm (PyVal.pystr s) = []) ∧
    (∀ nm : String, retrieve_array_like nm PyVal.other = []) ∧
    (∀ (nm : String) (vs : PyElems),
      retrieve_array_like nm (PyVal.tuple vs) =
        if is_arraylike (PyVal.tuple vs) then [(nm, PyVal.tuple vs)] else []) := by
  refine ⟨?_, ?_, ?_, ?_, ?_⟩
  · intro i1 i2 i3
    have h0 : ("[" : String) ++ toString (0 : Nat) ++ "]" = ("[0]" : String) := rfl
    have h1 : ("[" : String) ++ toString (1 : Nat) ++ "]" = ("[1]" : String) := rfl
    simp [retrieve_array_like, leavesOf, fieldsLeaves, elemsLeaves, joinFields, joinIndexed,
          dictUpdate, dictInsert, prependPath, is_arraylike, keyStr, List.enum, List.enumFrom,
          h0, h1]
  · intro nm k
    simp [retrieve_array_like, leavesOf, is_arraylike, prependPath]
  · intro nm s
    simp [retrieve_array_like, leavesOf, is_arraylike, prependPath]
  · intro nm
    simp [retrieve_array_like, leavesOf, is_arraylike, prependPath]
  · intro nm vs
    by_cases h : is_arraylike (PyVal.tuple vs) = true
    · rw [if_pos h]
      simp [retrieve_array_like, leavesOf, h, prependPath]
    · rw [if_neg h]
      simp only [Bool.not_eq_true] at h
      simp [retrieve_array_like, leavesOf, h, prependPath]

def exT1 : NpArr := ⟨[1], Dtype.uint8, Order.C, [5]⟩

def exT2 : NpArr := ⟨[1], Dtype.uint8, Order.C, [6]⟩

def tupVal : PyVal :=
  PyVal.tuple (PyElems.cons (PyVal.ndarray exT1) (PyElems.cons (PyVal.ndarray exT2) PyElems.nil))

/-- Counterexample for claim C4 as stated: a tuple of two equal-shape
arrays is array-like as a whole (np.asarray stacks it), so flatten
keeps it as the single leaf `root` instead of recursing to `root[0]`
and `root[1]` as it does for a list. -/
theorem flatten_tuple_not_recursed :
    retrieve_array_like ("root") tupVal = [(("root"), tupVal)] ∧
    retrieve_array_like ("root") tupVal ≠
      [(("root[0]"), PyVal.ndarray exT1), (("root[1]"), PyVal.ndarray exT2)] := by
  constructor
  · rfl
  · intro h
    rw [show retrieve_array_like ("root") tupVal = [(("root"), tupVal)] from rfl] at h
    simp at h

/-! Claim C5: path collisions during flattening. -/

def dictCollide : PyVal :=
  PyVal.dict (PyFields.cons (PyKey.int 1) (PyVal.ndarray exT1)
    (PyFields.cons (PyKey.str ("1")) (PyVal.ndarray exT2) PyFields.nil))

/-- Counterexample for claim C5 as stated: the int key `1` and the
string key `"1"` render to the same path `root[1]`; flatten raises no
error and silently returns a single leaf. -/
theorem flatten_collision_no_error :
    retrieve_array_like ("root") dictCollide = [(("root[1]"), PyVal.ndarray exT2)] := by
  rfl

/-- Claim C5 (amended): when two dict entries render to the same
qualified path, flatten does not treat the collision as an error: the
merge keeps only the later entry's leaf (at the position of the
earlier one). -/
theorem flatten_collision_keeps_last (nm : String) (k1 k2 : PyKey) (v1 v2 : PyVal)
    (h1 : isStruct v1 = false) (h2 : is_arraylike v1 = true)
    (h3 : isStruct v2 = false) (h4 : is_arraylike v2 = true)
    (hk : keyStr k1 = keyStr k2) :
    retrieve_array_like nm (PyVal.dict (PyFields.cons k1 v1 (PyFields.cons k2 v2 PyFields.nil))) =
      [((nm ++ ("[") ++ keyStr k2 ++ ("]")), v2)] := by
  have l1 := leavesOf_leaf v1 h1 h2
  have l2 := leavesOf_leaf v2 h3 h4
  simp [retrieve_array_like, leavesOf, fieldsLeaves, joinFields, dictUpdate, dictInsert,
        prependPath, l1, l2, hk, String.append_assoc]

def collideWitnessVal : PyVal :=
  PyVal.dict (PyFields.cons (PyKey.int 1) (PyVal.ndarray exT1)
    (PyFields.cons (PyKey.str ("1")) (PyVal.ndarray exT2) PyFields.nil))

/-- Witness for the amended claim C5 at the concrete colliding keys. -/
theorem flatten_collision_keeps_last_witness :
    retrieve_array_like ("root") collideWitnessVal = [(("root[1]"), PyVal.ndarray exT2)] :=
  flatten_collision_keeps_last ("root") (PyKey.int 1) (PyKey.str ("1"))
    (PyVal.ndarray exT1) (PyVal.ndarray exT2) rfl rfl rfl rfl rfl

/-! Claim C6: a failing coercion aborts a multi-leaf send midway. -/

theorem except_ok_of_isOk {e : Type} {a : Type} (x : Except e a) (hx : x.isOk = true) :
    ∃ b, x = Except.ok b := by
  cases x with
  | ok b => exact ⟨b, rfl⟩
  | error err => simp [Except.isOk, Except.toBool] at hx

theorem framesOf_cons_ok (o : SendOpts) (x : String × PyVal) (xs : List (String × PyVal))
    (a : NpArr) (ha : to_numpy x.2 = Except.ok a) :
    framesOf o (x :: xs) = send_numpy a (some x.1) o :: framesOf o xs := by
  simp [framesOf, List.filterMap_cons, ha, Except.toOption]

theorem framesOf_length_of_ok (o : SendOpts) (pre : List (String × PyVal))
    (hpre : ∀ x ∈ pre, (to_numpy x.2).isOk = true) :
    (framesOf o pre).length = pre.length := by
  induction pre with
  | nil => rfl
  | cons x xs ih =>
      obtain ⟨a, ha⟩ := except_ok_of_isOk (to_numpy x.2) (hpre x (by simp))
      rw [framesOf_cons_ok o x xs a ha, List.length_cons, List.length_cons,
        ih (fun y hy => hpre y (by simp [hy]))]

theorem send_frames_cons_ok (o : SendOpts) (px : String) (vx : PyVal)
    (rest : List (String × PyVal)) (a : NpArr) (ha : to_numpy vx = Except.ok a) :
    send_frames o ((px, vx) :: rest) =
      (send_numpy a (some px) o :: (send_frames o rest).1, (send_frames o rest).2) := by
  simp [send_frames, ha]

/-- Claim C6 (confirmed): in a multi-leaf send where every leaf before
the k-th coerces and the k-th fails to coerce, the transmission loop
raises the unsupported-type error to the caller, the first k-1 leaves
have already been transmitted (one frame each, not rolled back), and no
later leaf is processed. -/
theorem send_partial_transmission_on_unsupported (o : SendOpts)
    (pre : List (String × PyVal)) (p : String) (v : PyVal)
    (post : List (String × PyVal)) (e : String)
    (hpre : ∀ x ∈ pre, (to_numpy x.2).isOk = true)
    (hv : to_numpy v = Except.error e) :
    send_frames o (pre ++ (p, v) :: post) = (framesOf o pre, some e) ∧
    (framesOf o pre).length = pre.length := by
  refine ⟨?_, framesOf_length_of_ok o pre hpre⟩
  induction pre with
  | nil => simp [send_frames, framesOf, hv]
  | cons x xs ih =>
      obtain ⟨px, vx⟩ := x
      obtain ⟨a, ha⟩ := except_ok_of_isOk (to_numpy vx) (hpre (px, vx) (by simp))
      rw [List.cons_append, send_frames_cons_ok o px vx _ a ha,
        ih (fun y hy => hpre y (by simp [hy])), framesOf_cons_ok o (px, vx) xs a ha]

def sendOptsDefault : SendOpts := {}

/-- Witness for claim C6: one good numpy leaf followed by a protocol
object whose conversion has object dtype; the first frame is sent, then
the error reaches the caller. -/
theorem send_partial_transmission_witness :
    send_frames sendOptsDefault
        [(("array[a]"), PyVal.ndarray exT1), (("array[b]"), PyVal.protoObj none)] =
      (framesOf sendOptsDefault [(("array[a]"), PyVal.ndarray exT1)], some ("Unsupported array type")) ∧
    (framesOf sendOptsDefault [(("array[a]"), PyVal.ndarray exT1)]).length = 1 :=
  send_partial_transmission_on_unsupported sendOptsDefault
    [(("array[a]"), PyVal.ndarray exT1)] ("array[b]") (PyVal.protoObj none) [] ("Unsupported array type")
    (by intro x hx; rw [List.mem_singleton] at hx; rw [hx]; rfl) rfl

/-! Endpoint resolver, over `List Char` models of Python strings. -/

/-- Test for the network scheme, as `endpoint.startswith("tcp://")`. -/
def startsWithTcp : List Char → Bool
  | 't' :: 'c' :: 'p' :: ':' :: '/' :: '/' :: _ => true
  | _ => false

/-- Split at the last colon, as `host_port.rsplit(":", 1)` unpacked into
two parts; `none` when there is no colon (where the Python unpacking
raises ValueError, caught by the surrounding `except`). -/
def rsplitColon : List Char → Option (List Char × List Char)
  | [] => none
  | c :: rest =>
      match rsplitColon rest with
      | some (h, p) => some (c :: h, p)
      | none => if c = ':' then some ([], rest) else none

/-- Value of a digit string. -/
def digitsVal (l : List Char) : Nat :=
  l.foldl (fun a c => a * 10 + (c.toNat - 48)) 0

/-- Parse `int(port)`: an optional sign followed by at least one digit.
Python's `int` also strips surrounding whitespace and allows
underscores; those forms are not modelled and no claim involves
them. -/
def parsePort : List Char → Option Int
  | '-' :: rest =>
      if rest ≠ [] ∧ rest.all Char.isDigit then some (-(digitsVal rest : Int)) else none
  | '+' :: rest =>
      if rest ≠ [] ∧ rest.all Char.isDigit then some ((digitsVal rest : Int)) else none
  | l => if l ≠ [] ∧ l.all Char.isDigit then some ((digitsVal l : Int)) else none

/-- Rewrite `bind_endpoint_for_public(endpoint)`: non-tcp endpoints pass
through; otherwise split host and port at the last colon and parse the
port, passing the endpoint through unchanged on any failure; wildcard
hosts pass through; otherwise rebuild with the bind-all host. -/
def bind_endpoint_for_public (endpoint : List Char) : List Char :=
  if startsWithTcp endpoint = false then endpoint
  else
    match rsplitColon (endpoint.drop 6) with
    | none => endpoint
    | some (host, port) =>
      match parsePort port with
      | none => endpoint
      | some p =>
        if host = ['*'] ∨ host = ("0.0.0.0").data then endpoint
        else ("tcp://*:").data ++ (toString p).data

theorem rsplitColon_no_colon (l : List Char) (h : (':') ∉ l) : rsplitColon l = none := by
  induction l with
  | nil => rfl
  | cons c rest ih =>
      have hc : ¬ c = ':' := fun hh => h (by simp [hh])
      have hr : (':') ∉ rest := fun hm => h (by simp [hm])
      simp [rsplitColon, ih hr, hc]

theorem rsplitColon_append (host port : List Char) (h : (':') ∉ port) :
    rsplitColon (host ++ ':' :: port) = some (host, port) := by
  induction host with
  | nil => simp [rsplitColon, rsplitColon_no_colon port h]
  | cons c rest ih => simp [rsplitColon, ih]

theorem startsWithTcp_cons (l : List Char) :
    startsWithTcp ('t' :: 'c' :: 'p' :: ':' :: '/' :: '/' :: l) = true := rfl

theorem drop6_cons (l : List Char) :
    List.drop 6 ('t' :: 'c' :: 'p' :: ':' :: '/' :: '/' :: l) = l := rfl

/-- Claim C8 (confirmed): a tcp endpoint with non-wildcard host and
parseable port is rewritten to the bind-all wildcard with the port
value preserved; non-tcp endpoints, endpoints whose host is already a
wildcard, endpoints without a colon after the scheme, and endpoints
with an unparseable port pass through unchanged; and the spec's two
concrete examples hold. -/
theorem bind_endpoint_for_public_spec :
    (∀ e : List Char, startsWithTcp e = false → bind_endpoint_for_public e = e) ∧
    (∀ (host port : List Char) (p : Int),
      ¬ host = ['*'] → ¬ host = ("0.0.0.0").data → (':') ∉ port → parsePort port = some p →
      bind_endpoint_for_public (("tcp://").data ++ (host ++ ':' :: port)) =
        ("tcp://*:").data ++ (toString p).data) ∧
    (∀ (host port : List Char) (p : Int),
      (host = ['*'] ∨ host = ("0.0.0.0").data) → (':') ∉ port → parsePort port = some p →
      bind_endpoint_for_public (("tcp://").data ++ (host ++ ':' :: port)) =
        ("tcp://").data ++ (host ++ ':' :: port)) ∧
    (∀ rest : List Char, (':') ∉ rest →
      bind_endpoint_for_public (("tcp://").data ++ rest) = ("tcp://").data ++ rest) ∧
    (∀ host port : List Char, (':') ∉ port → parsePort port = none →
      bind_endpoint_for_public (("tcp://").data ++ (host ++ ':' :: port)) =
        ("tcp://").data ++ (host ++ ':' :: port)) ∧
    bind_endpoint_for_public (("tcp://127.0.0.1:5556").data) = ("tcp://*:5556").data ∧
    bind_endpoint_for_public (("ipc:///tmp/x").data) = ("ipc:///tmp/x").data := by
  refine ⟨?_, ?_, ?_, ?_, ?_, ?_, ?_⟩
  · intro e he
    unfold bind_endpoint_for_public
    rw [if_pos he]
  · intro host port p h1 h2 hc hp
    unfold bind_endpoint_for_public
    simp only [List.cons_append, List.nil_append]
    rw [if_neg (by simp only [startsWithTcp_cons]; simp)]
    simp only [drop6_cons, rsplitColon_append host port hc, hp]
    rw [if_neg (by simp [h1, h2])]
  · intro host port p h1 hc hp
    unfold bind_endpoint_for_public
    simp only [List.cons_append, List.nil_append]
    rw [if_neg (by simp only [startsWithTcp_cons]; simp)]
    simp only [drop6_cons, rsplitColon_append host port hc, hp]
    rw [if_pos (by simpa using h1)]
  · intro rest hc
    unfold bind_endpoint_for_public
    simp only [List.cons_append, List.nil_append]
    rw [if_neg (by simp only [startsWithTcp_cons]; simp)]
    simp only [drop6_cons, rsplitColon_no_colon rest hc]
  · intro host port hc hp
    unfold bind_endpoint_for_public
    simp only [List.cons_append, List.nil_append]
    rw [if_neg (by simp only [startsWithTcp_cons]; simp)]
    simp only [drop6_cons, rsplitColon_append host port hc, hp]
  · rfl
  · rfl

/-- Witness for claim C8 at the concrete spec example, through the
general rewrite conjunct. -/
theorem bind_endpoint_for_public_spec_witness :
    bind_endpoint_for_public (("tcp://").data ++ ((("127.0.0.1").data) ++ ':' :: (("5556").data))) =
      ("tcp://*:").data ++ (toString (5556 : Int)).data :=
  bind_endpoint_for_public_spec.2.1 (("127.0.0.1").data) (("5556").data) 5556
    (by decide) (by decide) (by decide) (by decide)

/-! Endpoint resolver: platform defaults.  The same function appears
verbatim in `_listener.py` and `_utils.py`; `os.name` and the
best-effort `_preferred_ip()` result (a network lookup) are passed as
parameters. -/

def DEFAULT_TCP_PORT : Nat := 5556

/-- Default endpoint per visibility scope and platform:
public is tcp on the fixed port at the preferred address; private is
tcp loopback on Windows (`os.name == "nt"`) and the fixed ipc socket
path elsewhere. -/
def default_endpoint (os_name : String) (preferred_ip : String) (pub : Bool) : String :=
  if pub then ("tcp://") ++ preferred_ip ++ (":") ++ toString DEFAULT_TCP_PORT
  else if os_name = "nt" then ("tcp://127.0.0.1:") ++ toString DEFAULT_TCP_PORT
  else "ipc:///tmp/napari_stream.sock"

/-- Claim C9 (confirmed): the public default is always a tcp endpoint
on the well-known port 5556; the private default is the filesystem ipc
endpoint on platforms with fast local transport (non-Windows) and tcp
loopback on Windows. -/
theorem default_endpoint_spec :
    (∀ os ip : String, default_endpoint os ip true = ("tcp://") ++ ip ++ (":5556") ∧
      startsWithTcp (default_endpoint os ip true).data = true ∧ DEFAULT_TCP_PORT = 5556) ∧
    (∀ os ip : String, ¬ os = "nt" →
      default_endpoint os ip false = "ipc:///tmp/napari_stream.sock" ∧
      startsWithTcp (default_endpoint os ip false).data = false) ∧
    (∀ ip : String, default_endpoint "nt" ip false = "tcp://127.0.0.1:5556" ∧
      startsWithTcp (default_endpoint "nt" ip false).data = true) := by
  refine ⟨?_, ?_, ?_⟩
  · intro os ip
    refine ⟨?_, ?_, rfl⟩
    · show ("tcp://") ++ ip ++ (":") ++ toString DEFAULT_TCP_PORT = ("tcp://") ++ ip ++ (":5556")
      rw [show toString DEFAULT_TCP_PORT = ("5556" : String) from rfl, String.append_assoc,
        show (":" : String) ++ "5556" = (":5556" : String) from rfl]
    · show startsWithTcp ((("tcp://") ++ ip ++ (":") ++ toString DEFAULT_TCP_PORT).data) = true
      simp only [String.data_append, List.cons_append, List.nil_append, startsWithTcp_cons]
  · intro os ip h
    have he : default_endpoint os ip false = "ipc:///tmp/napari_stream.sock" := by
      unfold default_endpoint
      rw [if_neg (by simp), if_neg h]
    exact ⟨he, by rw [he]; rfl⟩
  · intro ip
    have he : default_endpoint "nt" ip false = "tcp://127.0.0.1:5556" := by
      unfold default_endpoint
      rw [if_neg (by simp), if_pos rfl]
      rfl
    exact ⟨he, by rw [he]; rfl⟩

/-- Witness for claim C9 on a non-Windows platform name. -/
theorem default_endpoint_spec_witness :
    default_endpoint ("posix") ("10.0.0.5") false = "ipc:///tmp/napari_stream.sock" ∧
    startsWithTcp (default_endpoint ("posix") ("10.0.0.5") false).data = false :=
  default_endpoint_spec.2.1 ("posix") ("10.0.0.5") (by decide)

/-! Transport worker: the listener's receive loop.

The body of `ZMQImageListener.start` polls with a 100 ms tick while
`self._running` holds.  One tick is modelled by its observable outcome:
no data; a two-part message (decoded with `_from_bytes`, emitted on
`received` on success and on `error` on failure — the inner
`except Exception` also catches socket-level receive failures, which
likewise emit on `error` and continue); a failure of the poll itself
(caught by the outer `except`, which reports and leaves the loop); and
the `stop()` request, which clears the running flag checked at the top
of each tick. -/

/-- Observable listener state: the running flag and the histories of
the data and error channels. -/
structure LState where
  running : Bool
  received : List (NpArr × Header)
  errors : List String
deriving DecidableEq

/-- Outcome of one 100 ms tick of the poll loop. -/
inductive Tick where
  | noData : Tick
  | msg : List Nat → Header → Tick
  | recvFail : String → Tick
  | pollFail : String → Tick
  | stopSignal : Tick

/-- Text reported to the error channel for a decode failure, as
`repr(e)` renders the exception. -/
def reprDecodeError : DecodeError → String
  | .keyError f => ("KeyError: ") ++ f
  | .formatError m => ("ValueError: ") ++ m

/-- Effect of one tick on the listener state. -/
def tickStep (s : LState) : Tick → LState
  | .noData => s
  | .msg buf hdr =>
      match from_bytes buf hdr with
      | .ok a => { s with received := s.received ++ [(a, hdr)] }
      | .error e => { s with errors := s.errors ++ [reprDecodeError e] }
  | .recvFail m => { s with errors := s.errors ++ [m] }
  | .pollFail m => { s with running := false, errors := s.errors ++ [m] }
  | .stopSignal => { s with running := false }

/-- The poll loop over a sequence of tick outcomes: each tick runs only
while the running flag still holds. -/
def runLoop (s : LState) : List Tick → LState
  | [] => s
  | t :: ts => if s.running then runLoop (tickStep s t) ts else s

/-- Claim C7 (confirmed): in a polling session, a frame whose decoding
fails is reported to the error sink, nothing is emitted to the display
sink, and the loop carries on to the next tick still running; the
running flag is only ever cleared by the stop request or by a failure
of the poll itself (the socket-level failure the outer handler turns
into session teardown). -/
theorem decode_failure_continues_loop (s : LState) (buf : List Nat) (hdr : Header)
    (e : DecodeError) (ts : List Tick)
    (hr : s.running = true) (he : from_bytes buf hdr = Except.error e) :
    (tickStep s (Tick.msg buf hdr)).running = true ∧
    (tickStep s (Tick.msg buf hdr)).errors = s.errors ++ [reprDecodeError e] ∧
    (tickStep s (Tick.msg buf hdr)).received = s.received ∧
    runLoop s (Tick.msg buf hdr :: ts) = runLoop (tickStep s (Tick.msg buf hdr)) ts ∧
    (∀ t : Tick, (tickStep s t).running = false →
      t = Tick.stopSignal ∨ ∃ m, t = Tick.pollFail m) := by
  have hstep : tickStep s (Tick.msg buf hdr) =
      { s with errors := s.errors ++ [reprDecodeError e] } := by
    simp [tickStep, he]
  refine ⟨?_, ?_, ?_, ?_, ?_⟩
  · rw [hstep]
    exact hr
  · rw [hstep]
  · rw [hstep]
  · simp [runLoop, hr]
  · intro t ht
    cases t with
    | noData => simp [tickStep, hr] at ht
    | msg b h2 =>
        cases hfb : from_bytes b h2 with
        | ok a => simp [tickStep, hfb, hr] at ht
        | error e2 => simp [tickStep, hfb, hr] at ht
    | recvFail m => simp [tickStep, hr] at ht
    | pollFail m => exact Or.inr ⟨m, rfl⟩
    | stopSignal => exact Or.inl rfl

def lsPolling : LState := ⟨true, [], []⟩

/-- Witness for claim C7: a polling session receives a frame whose
header lacks the shape key; the error is reported and the loop keeps
running. -/
theorem decode_failure_continues_loop_witness :
    (tickStep lsPolling (Tick.msg [] ({} : Header))).running = true ∧
    (tickStep lsPolling (Tick.msg [] ({} : Header))).errors =
      lsPolling.errors ++ [reprDecodeError (DecodeError.keyError ("shape"))] ∧
    (tickStep lsPolling (Tick.msg [] ({} : Header))).received = lsPolling.received ∧
    runLoop lsPolling (Tick.msg [] ({} : Header) :: [Tick.noData]) =
      runLoop (tickStep lsPolling (Tick.msg [] ({} : Header))) [Tick.noData] ∧
    (∀ t : Tick, (tickStep lsPolling t).running = false →
      t = Tick.stopSignal ∨ ∃ m, t = Tick.pollFail m) :=
  decode_failure_continues_loop lsPolling [] ({} : Header)
    (DecodeError.keyError ("shape")) [Tick.noData] rfl rfl

end NapariStream
